import Mathlib

/-!
Verification of the SmartWatt backend (Volt repository).

The relevant program units are shallowly embedded:

* JS numbers are modelled as exact rationals (`ℚ`); where `NaN` matters the
  dedicated type `JsNum` is used.
* Request-supplied values (fields of `req.body` / `req.params`) are modelled by
  `ReqVal`, distinguishing `undefined`, `null`, the empty string, non-numeric
  values and numeric values, because the handlers distinguish exactly those.
* The database is modelled as explicit state: one user's row (`budget`,
  `minBudget`, `totalWattage`), the device catalog (`systemDevice` table) and
  the assignment table (`userHomeDevice`).  Each Express handler becomes a
  function from state and request values to a response and a new state; a
  thrown error (`next(error)`) leaves the state unchanged, which is faithful
  for every error path proved about below because each of those throws happens
  before the first database write.
* Two models of the assignment handlers are given.  `AppState` idealizes the
  user's aggregate columns as exact rationals and applies the row write and
  the aggregate delta together — this is the arithmetic the controller itself
  performs, and it is the model for the claims that never reach the aggregate
  write (rejections thrown before any write, stored work time, and the
  branches that issue no `user.update` at all).  `AppStateInt` models the
  storage layer faithfully: prisma/schema.prisma declares `budget`,
  `totalWattage` and `minBudget` as `Int` (Postgres `INTEGER`), and
  `safeTransaction(async () => {…}, prisma)` passes a callback that ignores
  the transaction client and closes over the global client, so the two writes
  of the aggregate path run outside the transaction and are not atomic.  The
  budget-ledger claim is settled against the faithful model.
-/

/-- A request-supplied value as the Express handlers see it: `undef` is a JS
`undefined` (absent field), `nullv` is JS `null`, `emptyStr` the empty string,
`nan` a present value whose numeric coercion (`Number(v)`) is `NaN`, and
`val q` a present value whose numeric coercion is the number `q`. -/
inductive ReqVal where
  | undef
  | nullv
  | emptyStr
  | nan
  | val (q : ℚ)
deriving Repr, DecidableEq

/-- src/src/utils.js `validateRequiredParams` treats a parameter as missing when
it is `undefined`, `null` or the empty string. -/
def isMissingParam : ReqVal → Bool
  | .undef => true
  | .nullv => true
  | .emptyStr => true
  | .nan => false
  | .val _ => false

/-- src/src/utils.js `safeParseNumber`: `null` and `undefined` yield the default
value; otherwise the value is coerced with `Number(v)` and a `NaN` result yields
the default.  `Number("")` is `0`, so the empty string parses to `0`. -/
def safeParseNumber (v : ReqVal) (defaultValue : ℚ := 0) : ℚ :=
  match v with
  | .undef => defaultValue
  | .nullv => defaultValue
  | .emptyStr => 0
  | .nan => defaultValue
  | .val q => q

/-- src/src/utils.js `calculateDeviceCost`: `kWh = (watts * hours) / 1000` and
the result is `kWh * costPerKWh`, with default rate `0.68`. -/
def calculateDeviceCost (watts hours : ℚ) (costPerKWh : ℚ := 68/100) : ℚ :=
  watts * hours / 1000 * costPerKWh

/-- A JS number as it flows through arithmetic: either `NaN` or a finite value
(modelled as an exact rational). -/
inductive JsNum where
  | nan
  | num (q : ℚ)
deriving Repr, DecidableEq

/-- JS multiplication on the values reachable here: `NaN` times anything is
`NaN`. -/
def jsMul : JsNum → JsNum → JsNum
  | .num a, .num b => .num (a * b)
  | _, _ => .nan

/-- Division by the literal `1000`, the only division in `calculateDeviceCost`
(`NaN / 1000` is `NaN`). -/
def jsDiv1000 : JsNum → JsNum
  | .num a => .num (a / 1000)
  | .nan => .nan

/-- src/src/utils.js `calculateDeviceCost` under JS arithmetic.  `rate = none`
models a call that omits the third argument (or passes `undefined`), which
triggers the default parameter `0.68`; any other invalid value reaches the
multiplication unchanged. -/
def calculateDeviceCostJs (watts hours : JsNum) (rate : Option JsNum) : JsNum :=
  jsMul (jsDiv1000 (jsMul watts hours)) (rate.getD (.num (68/100)))

/-- Claim C3: for all non-negative watts and hours and positive rate, the cost
calculator returns exactly `watts * hours * rate / 1000` with no rounding; in
particular `cost 0 h r = 0` and `cost w 0 r = 0`, and the default rate is
`0.68`. -/
theorem calculateDeviceCost_exact (w h r : ℚ) (hw : 0 ≤ w) (hh : 0 ≤ h)
    (hr : 0 < r) :
    calculateDeviceCost w h r = w * h * r / 1000
      ∧ calculateDeviceCost 0 h r = 0
      ∧ calculateDeviceCost w 0 r = 0
      ∧ calculateDeviceCost w h = calculateDeviceCost w h (68/100) := by
  refine ⟨?_, ?_, ?_, rfl⟩ <;> simp [calculateDeviceCost] <;> ring

theorem calculateDeviceCost_exact_witness :
    calculateDeviceCost 100 24 (68/100) = 100 * 24 * (68/100) / 1000
      ∧ calculateDeviceCost 0 24 (68/100) = 0
      ∧ calculateDeviceCost 100 0 (68/100) = 0
      ∧ calculateDeviceCost 100 24 = calculateDeviceCost 100 24 (68/100) :=
  calculateDeviceCost_exact 100 24 (68/100) (by norm_num) (by norm_num)
    (by norm_num)

/-- Claim C7 counterexample: `calculateDeviceCost` itself does not coerce an
invalid input to `0` — called with a non-numeric `watts` (numeric value `NaN`)
it returns `NaN`, not the number `cost 0 24` that coercion to `0` would give. -/
theorem calculateDeviceCostJs_nan_propagates :
    calculateDeviceCostJs JsNum.nan (JsNum.num 24) (some (JsNum.num (68/100)))
        = JsNum.nan
      ∧ calculateDeviceCostJs JsNum.nan (JsNum.num 24)
          (some (JsNum.num (68/100)))
        ≠ JsNum.num (calculateDeviceCost 0 24 (68/100)) := by
  refine ⟨rfl, ?_⟩
  decide

/-- Claim C7 (amended): the coercion of invalid inputs to `0` lives in
`safeParseNumber`, not inside `calculateDeviceCost`: `safeParseNumber` maps
`undefined`, `null` and non-numeric values to its default (`0` when the caller
asks for `0`), and the cost calculation applied to `safeParseNumber`-sanitized
inputs always returns a finite number — never `NaN` — equal to the exact
rational cost. -/
theorem calculateDeviceCost_sanitized (v w r : ReqVal) :
    (safeParseNumber ReqVal.undef 0 = 0
        ∧ safeParseNumber ReqVal.nullv 0 = 0
        ∧ safeParseNumber ReqVal.nan 0 = 0)
      ∧ calculateDeviceCostJs (JsNum.num (safeParseNumber v 0))
          (JsNum.num (safeParseNumber w 0))
          (some (JsNum.num (safeParseNumber r (68/100))))
        = JsNum.num (calculateDeviceCost (safeParseNumber v 0)
            (safeParseNumber w 0) (safeParseNumber r (68/100))) :=
  ⟨⟨rfl, rfl, rfl⟩, rfl⟩

/-- A row of the `systemDevice` table (prisma/schema.prisma): the admin-managed
device catalog.  `img` is `none` when no image was uploaded.  Strings are
modelled as `List Char`. -/
structure SystemDevice where
  id : ℚ
  name : List Char
  img : Option (List Char)
  wattsOptions : List ℚ
  deviceWorkAllDay : Bool
deriving Repr, DecidableEq

/-- A row of the `userHomeDevice` table: a user's device assignment. -/
structure UserHomeDevice where
  id : ℚ
  userId : ℚ
  systemDeviceId : ℚ
  chosenWatts : ℚ
  userInputWorkTime : ℚ
deriving Repr, DecidableEq

/-- The stored state visible to one authenticated user's requests: the user's
row (`budget`, `minBudget`, `totalWattage`), the device catalog, the assignment
table, and the next id the autoincrement sequence will hand out.  The three
aggregate fields are idealized as exact rationals here; the schema declares
them `Int`, and `AppStateInt` below models that faithfully. -/
structure AppState where
  userId : ℚ
  budget : ℚ
  minBudget : ℚ
  totalWattage : ℚ
  catalog : List SystemDevice
  assignments : List UserHomeDevice
  nextId : ℚ
deriving Repr, DecidableEq

/-- The outcome of a handler: a `201`/`200` success response, or an error
forwarded to the error middleware with its `statusCode` and message. -/
inductive Resp where
  | created
  | ok
  | err (statusCode : ℕ) (msg : String)
deriving Repr, DecidableEq

/-- `prisma.systemDevice.findUnique({ where: { id } })`. -/
def catalogFind (catalog : List SystemDevice) (i : ℚ) : Option SystemDevice :=
  catalog.find? (fun d => decide (d.id = i))

/-- `prisma.userHomeDevice.findFirst({ where: { id, userId } })`: the assignment
with the given id owned by the requesting user. -/
def findAssignment (st : AppState) (i : ℚ) : Option UserHomeDevice :=
  st.assignments.find? (fun b => decide (b.id = i ∧ b.userId = st.userId))

/-- src/src/controllers/userHomeDeviceController.js `addHomeDeviceToUser`:
validate presence of `homeDeviceId` and `chosenWatts`, parse them, reject
non-positive values (400), reject an unknown catalog entry (404), reject a
wattage outside the entry's `wattsOptions` (400), then create the assignment
(work time forced to 24 for an all-day entry, else the supplied value with
default 0) and, for an all-day entry, increment the user's `minBudget` by
`calculateDeviceCost(watts, 24)` and `totalWattage` by `watts`.  The insert
and the increment are idealized as one exact-rational step here; the faithful
non-atomic integer-column version is `addHomeDeviceToUserInt`. -/
def addHomeDeviceToUser (st : AppState)
    (homeDeviceId chosenWatts userInputWorkTime : ReqVal) : Resp × AppState :=
  if isMissingParam homeDeviceId || isMissingParam chosenWatts then
    (.err 400 "Missing required parameters", st)
  else
    let deviceId := safeParseNumber homeDeviceId 0
    let watts := safeParseNumber chosenWatts 0
    if deviceId ≤ 0 ∨ watts ≤ 0 then
      (.err 400 "Invalid homeDeviceId or chosenWatts", st)
    else
      match catalogFind st.catalog deviceId with
      | none => (.err 404 "Device not found", st)
      | some systemDevice =>
        if watts ∈ systemDevice.wattsOptions then
          let actualWorkTime :=
            if systemDevice.deviceWorkAllDay then 24
            else safeParseNumber userInputWorkTime 0
          let newDev : UserHomeDevice :=
            { id := st.nextId, userId := st.userId, systemDeviceId := deviceId,
              chosenWatts := watts, userInputWorkTime := actualWorkTime }
          if systemDevice.deviceWorkAllDay then
            (.created,
              { st with
                  assignments := st.assignments ++ [newDev],
                  nextId := st.nextId + 1,
                  minBudget := st.minBudget + calculateDeviceCost watts 24,
                  totalWattage := st.totalWattage + watts })
          else
            (.created,
              { st with
                  assignments := st.assignments ++ [newDev],
                  nextId := st.nextId + 1 })
        else (.err 400 "Invalid wattage choice", st)

/-- src/src/controllers/userHomeDeviceController.js `updateUserHomeDevice`:
reject a non-positive id (400), look up the assignment owned by the caller
(404 when absent), reject a supplied wattage outside the joined catalog entry's
options (400); then apply the patch (`chosenWatts` when supplied;
`userInputWorkTime` only when supplied and the entry is not all-day) and, when
the entry is all-day and the wattage actually changed, adjust `minBudget` by
the cost difference and `totalWattage` by the wattage difference — here
idealized as one exact-rational step; the faithful non-atomic integer-column
version is `updateUserHomeDeviceInt`.  A dangling `systemDeviceId` (impossible
under the database's foreign key) would crash the handler before any write,
modelled as a 500 without mutation.  `updatePatch` is the `updateData`
object the handler builds: `chosenWatts` is included when supplied, and
`userInputWorkTime` only when supplied and the entry is not all-day. -/
def updatePatch (systemDevice : SystemDevice)
    (chosenWatts userInputWorkTime : ReqVal) (b : UserHomeDevice) :
    UserHomeDevice :=
  let watts? : Option ℚ :=
    if chosenWatts = ReqVal.undef then none
    else some (safeParseNumber chosenWatts 0)
  let time? : Option ℚ :=
    if systemDevice.deviceWorkAllDay = false
        ∧ userInputWorkTime ≠ ReqVal.undef then
      some (safeParseNumber userInputWorkTime 0)
    else none
  { b with
      chosenWatts := watts?.getD b.chosenWatts,
      userInputWorkTime := time?.getD b.userInputWorkTime }

def updateUserHomeDevice (st : AppState)
    (idv chosenWatts userInputWorkTime : ReqVal) : Resp × AppState :=
  let deviceId := safeParseNumber idv 0
  if deviceId ≤ 0 then (.err 400 "Invalid device ID", st)
  else
    match findAssignment st deviceId with
    | none => (.err 404 "Device not found", st)
    | some existingDevice =>
      match catalogFind st.catalog existingDevice.systemDeviceId with
      | none => (.err 500 "Internal server error", st)
      | some systemDevice =>
        let watts? : Option ℚ :=
          if chosenWatts = ReqVal.undef then none
          else some (safeParseNumber chosenWatts 0)
        let patch := updatePatch systemDevice chosenWatts userInputWorkTime
        let assignments' :=
          st.assignments.map (fun b => if b.id = deviceId then patch b else b)
        match watts? with
        | some w =>
          if w ∈ systemDevice.wattsOptions then
            if systemDevice.deviceWorkAllDay ∧ existingDevice.chosenWatts ≠ w
            then
              (.ok,
                { st with
                    assignments := assignments',
                    minBudget := st.minBudget
                      + (calculateDeviceCost w 24
                          - calculateDeviceCost existingDevice.chosenWatts 24),
                    totalWattage := st.totalWattage
                      + (w - existingDevice.chosenWatts) })
            else (.ok, { st with assignments := assignments' })
          else (.err 400 "Invalid wattage choice", st)
        | none => (.ok, { st with assignments := assignments' })

/-- src/src/controllers/userHomeDeviceController.js `deleteUserHomeDevice`:
reject a non-positive id (400), look up the assignment owned by the caller
(404 when absent), delete it, and when the joined catalog entry is all-day and
`chosenWatts` is truthy (non-zero), decrement the user's `minBudget` by
`calculateDeviceCost(chosenWatts, 24)` and `totalWattage` by `chosenWatts` —
idealized as one exact-rational step; the faithful non-atomic integer-column
version is `deleteUserHomeDeviceInt`. -/
def deleteUserHomeDevice (st : AppState) (idv : ReqVal) : Resp × AppState :=
  let deviceId := safeParseNumber idv 0
  if deviceId ≤ 0 then (.err 400 "Invalid device ID", st)
  else
    match findAssignment st deviceId with
    | none => (.err 404 "Device not found", st)
    | some existingDevice =>
      match catalogFind st.catalog existingDevice.systemDeviceId with
      | none => (.err 500 "Internal server error", st)
      | some systemDevice =>
        let assignments' :=
          st.assignments.filter (fun b => decide ¬(b.id = deviceId))
        if systemDevice.deviceWorkAllDay ∧ existingDevice.chosenWatts ≠ 0 then
          (.ok,
            { st with
                assignments := assignments',
                minBudget := st.minBudget
                  - calculateDeviceCost existingDevice.chosenWatts 24,
                totalWattage := st.totalWattage - existingDevice.chosenWatts })
        else (.ok, { st with assignments := assignments' })

/-- One request against the assignment endpoints. -/
inductive Op where
  | add (homeDeviceId chosenWatts userInputWorkTime : ReqVal)
  | update (id chosenWatts userInputWorkTime : ReqVal)
  | del (id : ReqVal)
deriving Repr, DecidableEq

/-- The state after one request (the response is discarded). -/
def applyOp (st : AppState) (op : Op) : AppState :=
  match op with
  | .add h c t => (addHomeDeviceToUser st h c t).2
  | .update i c t => (updateUserHomeDevice st i c t).2
  | .del i => (deleteUserHomeDevice st i).2

/-- The state after a sequence of requests. -/
def applyOps (st : AppState) (ops : List Op) : AppState :=
  ops.foldl applyOp st

lemma findAssignment_props {st : AppState} {i : ℚ} {a : UserHomeDevice}
    (h : findAssignment st i = some a) :
    a ∈ st.assignments ∧ a.id = i ∧ a.userId = st.userId := by
  have hmem := List.mem_of_find?_eq_some h
  have hp := List.find?_some h
  simp only [decide_eq_true_eq] at hp
  exact ⟨hmem, hp.1, hp.2⟩

/-- Claim C10: a creation request whose `homeDeviceId` or `chosenWatts` parses
(non-numeric values defaulting to 0) to a non-positive value is rejected with a
400 error and no mutation — for every state, hence regardless of what any
catalog lookup would have found; consequently every assignment this handler
creates has strictly positive `chosenWatts`. -/
theorem addHomeDevice_rejects_nonpositive :
    (∀ (st : AppState) (hid cw tv : ReqVal),
        safeParseNumber hid 0 ≤ 0 ∨ safeParseNumber cw 0 ≤ 0 →
        (∃ m, (addHomeDeviceToUser st hid cw tv).1 = Resp.err 400 m)
          ∧ (addHomeDeviceToUser st hid cw tv).2 = st)
      ∧ (∀ (st : AppState) (hid cw tv : ReqVal),
          (addHomeDeviceToUser st hid cw tv).1 = Resp.created →
          ∃ d, (addHomeDeviceToUser st hid cw tv).2.assignments
              = st.assignments ++ [d] ∧ 0 < d.chosenWatts) := by
  constructor
  · intro st hid cw tv h
    simp only [addHomeDeviceToUser]
    split
    · exact ⟨⟨_, rfl⟩, rfl⟩
    · exact ⟨⟨_, rfl⟩, rfl⟩
  · intro st hid cw tv
    simp only [addHomeDeviceToUser]
    split
    · intro h; exact Resp.noConfusion h
    · split
      · intro h; exact Resp.noConfusion h
      · rename_i hpos
        push_neg at hpos
        split
        · intro h; exact Resp.noConfusion h
        · split
          · split
            · intro _; exact ⟨_, rfl, hpos.2⟩
            · intro _; exact ⟨_, rfl, hpos.2⟩
          · intro h; exact Resp.noConfusion h

/-- Claim C4: a create or update request whose supplied `chosenWatts` is not a
member of the referenced catalog entry's `wattsOptions` is rejected with a 400
error and leaves the stored state (assignments, `minBudget`, `totalWattage`)
unchanged. -/
theorem invalid_wattage_rejected :
    (∀ (st : AppState) (hid cw tv : ReqVal) (d : SystemDevice),
        catalogFind st.catalog (safeParseNumber hid 0) = some d →
        safeParseNumber cw 0 ∉ d.wattsOptions →
        (∃ m, (addHomeDeviceToUser st hid cw tv).1 = Resp.err 400 m)
          ∧ (addHomeDeviceToUser st hid cw tv).2 = st)
      ∧ (∀ (st : AppState) (idv cw tv : ReqVal) (a : UserHomeDevice)
            (d : SystemDevice),
          findAssignment st (safeParseNumber idv 0) = some a →
          catalogFind st.catalog a.systemDeviceId = some d →
          cw ≠ ReqVal.undef →
          safeParseNumber cw 0 ∉ d.wattsOptions →
          (∃ m, (updateUserHomeDevice st idv cw tv).1 = Resp.err 400 m)
            ∧ (updateUserHomeDevice st idv cw tv).2 = st) := by
  constructor
  · intro st hid cw tv d hfind hnot
    simp only [addHomeDeviceToUser]
    split
    · exact ⟨⟨_, rfl⟩, rfl⟩
    · split
      · exact ⟨⟨_, rfl⟩, rfl⟩
      · simp only [hfind]
        rw [if_neg hnot]
        exact ⟨⟨_, rfl⟩, rfl⟩
  · intro st idv cw tv a d hfind hcat hne hnot
    simp only [updateUserHomeDevice]
    split
    · exact ⟨⟨_, rfl⟩, rfl⟩
    · simp only [hfind, hcat]
      rw [if_neg hnot]
      exact ⟨⟨_, rfl⟩, rfl⟩

lemma updatePatch_id (sys : SystemDevice) (cw tv : ReqVal) (b : UserHomeDevice) :
    (updatePatch sys cw tv b).id = b.id := rfl

lemma updatePatch_systemDeviceId (sys : SystemDevice) (cw tv : ReqVal)
    (b : UserHomeDevice) :
    (updatePatch sys cw tv b).systemDeviceId = b.systemDeviceId := rfl

lemma updatePatch_userId (sys : SystemDevice) (cw tv : ReqVal)
    (b : UserHomeDevice) :
    (updatePatch sys cw tv b).userId = b.userId := rfl

lemma updatePatch_workTime_allDay {sys : SystemDevice}
    (h : sys.deviceWorkAllDay = true) (cw tv : ReqVal) (b : UserHomeDevice) :
    (updatePatch sys cw tv b).userInputWorkTime = b.userInputWorkTime := by
  simp [updatePatch, h]

lemma map_time_patch (i : ℚ) (f : UserHomeDevice → UserHomeDevice)
    (l : List UserHomeDevice)
    (hf : ∀ b, (f b).userInputWorkTime = b.userInputWorkTime) :
    (l.map (fun b => if b.id = i then f b else b)).map
        (fun b => b.userInputWorkTime)
      = l.map (fun b => b.userInputWorkTime) := by
  rw [List.map_map]
  apply List.map_congr_left
  intro b _
  by_cases hb : b.id = i <;> simp [hb, hf]

/-- Claim C8: on creation, the stored work time is forced to 24 whenever the
referenced catalog entry is all-day (regardless of any supplied value), and is
otherwise the supplied value parsed with default 0; on update of an all-day
assignment a supplied work-time value is ignored — no stored work time
changes. -/
theorem workTime_forced :
    (∀ (st : AppState) (hid cw tv : ReqVal) (d : SystemDevice),
        catalogFind st.catalog (safeParseNumber hid 0) = some d →
        d.deviceWorkAllDay = true →
        (addHomeDeviceToUser st hid cw tv).1 = Resp.created →
        ∃ a, (addHomeDeviceToUser st hid cw tv).2.assignments
            = st.assignments ++ [a] ∧ a.userInputWorkTime = 24)
      ∧ (∀ (st : AppState) (hid cw tv : ReqVal) (d : SystemDevice),
          catalogFind st.catalog (safeParseNumber hid 0) = some d →
          d.deviceWorkAllDay = false →
          (addHomeDeviceToUser st hid cw tv).1 = Resp.created →
          ∃ a, (addHomeDeviceToUser st hid cw tv).2.assignments
              = st.assignments ++ [a]
            ∧ a.userInputWorkTime = safeParseNumber tv 0)
      ∧ (∀ (st : AppState) (idv cw tv : ReqVal) (a : UserHomeDevice)
            (d : SystemDevice),
          findAssignment st (safeParseNumber idv 0) = some a →
          catalogFind st.catalog a.systemDeviceId = some d →
          d.deviceWorkAllDay = true →
          (updateUserHomeDevice st idv cw tv).2.assignments.map
              (fun b => b.userInputWorkTime)
            = st.assignments.map (fun b => b.userInputWorkTime)) := by
  refine ⟨?_, ?_, ?_⟩
  · intro st hid cw tv d hfind hall
    simp only [addHomeDeviceToUser]
    split
    · intro h; exact Resp.noConfusion h
    · split
      · intro h; exact Resp.noConfusion h
      · simp only [hfind]
        split
        · simp only [hall, if_pos rfl]
          intro _
          exact ⟨_, rfl, rfl⟩
        · intro h; exact Resp.noConfusion h
  · intro st hid cw tv d hfind hall
    simp only [addHomeDeviceToUser]
    split
    · intro h; exact Resp.noConfusion h
    · split
      · intro h; exact Resp.noConfusion h
      · simp only [hfind]
        split
        · simp only [hall]
          intro _
          exact ⟨_, rfl, rfl⟩
        · intro h; exact Resp.noConfusion h
  · intro st idv cw tv a d hfind hcat hall
    simp only [updateUserHomeDevice]
    split
    · rfl
    · simp only [hfind, hcat]
      split
      · split
        · split
          · exact map_time_patch _ _ _ (updatePatch_workTime_allDay hall cw tv)
          · exact map_time_patch _ _ _ (updatePatch_workTime_allDay hall cw tv)
        · rfl
      · exact map_time_patch _ _ _ (updatePatch_workTime_allDay hall cw tv)

/-- Claim C9: a create, update or delete of an assignment whose catalog entry
is not all-day, and an update of an all-day assignment whose wattage is
unchanged (no wattage supplied, or the supplied wattage equals the stored one),
leave the owning user's `minBudget` and `totalWattage` unchanged. -/
theorem aggregates_frame :
    (∀ (st : AppState) (hid cw tv : ReqVal) (d : SystemDevice),
        catalogFind st.catalog (safeParseNumber hid 0) = some d →
        d.deviceWorkAllDay = false →
        (addHomeDeviceToUser st hid cw tv).2.minBudget = st.minBudget
          ∧ (addHomeDeviceToUser st hid cw tv).2.totalWattage
              = st.totalWattage)
      ∧ (∀ (st : AppState) (idv cw tv : ReqVal) (a : UserHomeDevice)
            (d : SystemDevice),
          findAssignment st (safeParseNumber idv 0) = some a →
          catalogFind st.catalog a.systemDeviceId = some d →
          (d.deviceWorkAllDay = false ∨ cw = ReqVal.undef
            ∨ safeParseNumber cw 0 = a.chosenWatts) →
          (updateUserHomeDevice st idv cw tv).2.minBudget = st.minBudget
            ∧ (updateUserHomeDevice st idv cw tv).2.totalWattage
                = st.totalWattage)
      ∧ (∀ (st : AppState) (idv : ReqVal) (a : UserHomeDevice)
            (d : SystemDevice),
          findAssignment st (safeParseNumber idv 0) = some a →
          catalogFind st.catalog a.systemDeviceId = some d →
          d.deviceWorkAllDay = false →
          (deleteUserHomeDevice st idv).2.minBudget = st.minBudget
            ∧ (deleteUserHomeDevice st idv).2.totalWattage
                = st.totalWattage) := by
  refine ⟨?_, ?_, ?_⟩
  · intro st hid cw tv d hfind hall
    simp only [addHomeDeviceToUser]
    split
    · exact ⟨rfl, rfl⟩
    · split
      · exact ⟨rfl, rfl⟩
      · simp only [hfind]
        split
        · simp only [hall]
          exact ⟨rfl, rfl⟩
        · exact ⟨rfl, rfl⟩
  · intro st idv cw tv a d hfind hcat hdisj
    simp only [updateUserHomeDevice]
    split
    · exact ⟨rfl, rfl⟩
    · simp only [hfind, hcat]
      split
      · rename_i w hw
        split
        · split
          · rename_i hcond
            rcases hdisj with hall | hundef | heq
            · rw [hall] at hcond
              exact absurd hcond.1 (by simp)
            · rw [hundef] at hw
              simp at hw
            · have hcw : cw ≠ ReqVal.undef := by
                intro hcw
                rw [hcw] at hw
                simp at hw
              rw [if_neg hcw] at hw
              have hwval : safeParseNumber cw 0 = w := Option.some_inj.mp hw
              rw [heq] at hwval
              exact absurd hwval hcond.2
          · exact ⟨rfl, rfl⟩
        · exact ⟨rfl, rfl⟩
      · exact ⟨rfl, rfl⟩
  · intro st idv a d hfind hcat hall
    simp only [deleteUserHomeDevice]
    split
    · exact ⟨rfl, rfl⟩
    · simp only [hfind, hcat]
      split
      · rename_i hcond
        rw [hall] at hcond
        exact absurd hcond.1 (by simp)
      · exact ⟨rfl, rfl⟩

/-- A concrete all-day catalog entry used by the witnesses. -/
def sampleAllDay : SystemDevice :=
  { id := 1, name := ['t', 'v'], img := none, wattsOptions := [60, 100],
    deviceWorkAllDay := true }

/-- A concrete non-all-day catalog entry used by the witnesses. -/
def sampleFan : SystemDevice :=
  { id := 2, name := ['f'], img := none, wattsOptions := [40, 75],
    deviceWorkAllDay := false }

/-- A concrete state with an empty assignment table. -/
def sampleState : AppState :=
  { userId := 7, budget := 1000, minBudget := 0, totalWattage := 0,
    catalog := [sampleAllDay, sampleFan], assignments := [], nextId := 10 }

/-- A concrete all-day assignment owned by user 7. -/
def sampleAssign : UserHomeDevice :=
  { id := 10, userId := 7, systemDeviceId := 1, chosenWatts := 60,
    userInputWorkTime := 24 }

/-- A concrete non-all-day assignment owned by user 7. -/
def sampleAssignFan : UserHomeDevice :=
  { id := 11, userId := 7, systemDeviceId := 2, chosenWatts := 40,
    userInputWorkTime := 5 }

/-- A concrete state whose ledger matches its two assignments. -/
def sampleState2 : AppState :=
  { userId := 7, budget := 1000,
    minBudget := calculateDeviceCost 60 24, totalWattage := 60,
    catalog := [sampleAllDay, sampleFan],
    assignments := [sampleAssign, sampleAssignFan], nextId := 12 }

theorem addHomeDevice_rejects_nonpositive_witness :
    ((∃ m, (addHomeDeviceToUser sampleState (ReqVal.val 0) (ReqVal.val 60)
          ReqVal.undef).1 = Resp.err 400 m)
        ∧ (addHomeDeviceToUser sampleState (ReqVal.val 0) (ReqVal.val 60)
            ReqVal.undef).2 = sampleState)
      ∧ (∃ d, (addHomeDeviceToUser sampleState (ReqVal.val 1) (ReqVal.val 60)
            ReqVal.undef).2.assignments = sampleState.assignments ++ [d]
          ∧ 0 < d.chosenWatts) :=
  ⟨addHomeDevice_rejects_nonpositive.1 sampleState (ReqVal.val 0)
      (ReqVal.val 60) ReqVal.undef (Or.inl (by decide)),
    addHomeDevice_rejects_nonpositive.2 sampleState (ReqVal.val 1)
      (ReqVal.val 60) ReqVal.undef (by decide)⟩

theorem invalid_wattage_rejected_witness :
    ((∃ m, (addHomeDeviceToUser sampleState (ReqVal.val 1) (ReqVal.val 55)
          ReqVal.undef).1 = Resp.err 400 m)
        ∧ (addHomeDeviceToUser sampleState (ReqVal.val 1) (ReqVal.val 55)
            ReqVal.undef).2 = sampleState)
      ∧ ((∃ m, (updateUserHomeDevice sampleState2 (ReqVal.val 10)
            (ReqVal.val 55) ReqVal.undef).1 = Resp.err 400 m)
          ∧ (updateUserHomeDevice sampleState2 (ReqVal.val 10) (ReqVal.val 55)
              ReqVal.undef).2 = sampleState2) :=
  ⟨invalid_wattage_rejected.1 sampleState (ReqVal.val 1) (ReqVal.val 55)
      ReqVal.undef sampleAllDay (by decide) (by decide),
    invalid_wattage_rejected.2 sampleState2 (ReqVal.val 10) (ReqVal.val 55)
      ReqVal.undef sampleAssign sampleAllDay (by decide) (by decide)
      (by decide) (by decide)⟩

theorem workTime_forced_witness :
    (∃ a, (addHomeDeviceToUser sampleState (ReqVal.val 1) (ReqVal.val 60)
          (ReqVal.val 5)).2.assignments = sampleState.assignments ++ [a]
        ∧ a.userInputWorkTime = 24)
      ∧ (∃ a, (addHomeDeviceToUser sampleState (ReqVal.val 2) (ReqVal.val 40)
            (ReqVal.val 5)).2.assignments = sampleState.assignments ++ [a]
          ∧ a.userInputWorkTime = safeParseNumber (ReqVal.val 5) 0)
      ∧ (updateUserHomeDevice sampleState2 (ReqVal.val 10) (ReqVal.val 100)
            (ReqVal.val 9)).2.assignments.map (fun b => b.userInputWorkTime)
          = sampleState2.assignments.map (fun b => b.userInputWorkTime) :=
  ⟨workTime_forced.1 sampleState (ReqVal.val 1) (ReqVal.val 60) (ReqVal.val 5)
      sampleAllDay (by decide) (by decide) (by decide),
    workTime_forced.2.1 sampleState (ReqVal.val 2) (ReqVal.val 40)
      (ReqVal.val 5) sampleFan (by decide) (by decide) (by decide),
    workTime_forced.2.2 sampleState2 (ReqVal.val 10) (ReqVal.val 100)
      (ReqVal.val 9) sampleAssign sampleAllDay (by decide) (by decide)
      (by decide)⟩

theorem aggregates_frame_witness :
    ((addHomeDeviceToUser sampleState (ReqVal.val 2) (ReqVal.val 40)
          (ReqVal.val 5)).2.minBudget = sampleState.minBudget
        ∧ (addHomeDeviceToUser sampleState (ReqVal.val 2) (ReqVal.val 40)
            (ReqVal.val 5)).2.totalWattage = sampleState.totalWattage)
      ∧ ((updateUserHomeDevice sampleState2 (ReqVal.val 10) ReqVal.undef
            (ReqVal.val 3)).2.minBudget = sampleState2.minBudget
          ∧ (updateUserHomeDevice sampleState2 (ReqVal.val 10) ReqVal.undef
              (ReqVal.val 3)).2.totalWattage = sampleState2.totalWattage)
      ∧ ((deleteUserHomeDevice sampleState2 (ReqVal.val 11)).2.minBudget
            = sampleState2.minBudget
          ∧ (deleteUserHomeDevice sampleState2 (ReqVal.val 11)).2.totalWattage
              = sampleState2.totalWattage) :=
  ⟨aggregates_frame.1 sampleState (ReqVal.val 2) (ReqVal.val 40)
      (ReqVal.val 5) sampleFan (by decide) (by decide),
    aggregates_frame.2.1 sampleState2 (ReqVal.val 10) ReqVal.undef
      (ReqVal.val 3) sampleAssign sampleAllDay (by decide) (by decide)
      (Or.inr (Or.inl rfl)),
    aggregates_frame.2.2 sampleState2 (ReqVal.val 11) sampleAssignFan
      sampleFan (by decide) (by decide) (by decide)⟩

/-- The contribution of one assignment row to the owning user's committed
budget: `cost(chosenWatts, 24)` when the row belongs to the user and its
catalog entry is flagged all-day, else `0`. -/
def ledgerCost (u : ℚ) (c : List SystemDevice) (a : UserHomeDevice) : ℚ :=
  if a.userId = u then
    match catalogFind c a.systemDeviceId with
    | some d => if d.deviceWorkAllDay then calculateDeviceCost a.chosenWatts 24
                else 0
    | none => 0
  else 0

/-- The contribution of one assignment row to the owning user's total wattage:
`chosenWatts` when the row belongs to the user and its catalog entry is flagged
all-day, else `0`. -/
def ledgerWatt (u : ℚ) (c : List SystemDevice) (a : UserHomeDevice) : ℚ :=
  if a.userId = u then
    match catalogFind c a.systemDeviceId with
    | some d => if d.deviceWorkAllDay then a.chosenWatts else 0
    | none => 0
  else 0

/-- The sum of `cost(chosenWatts, 24)` over the user's current all-day
assignments. -/
def costSum (st : AppState) : ℚ :=
  (st.assignments.map (ledgerCost st.userId st.catalog)).sum

/-- The sum of `chosenWatts` over the user's current all-day assignments. -/
def wattSum (st : AppState) : ℚ :=
  (st.assignments.map (ledgerWatt st.userId st.catalog)).sum

/-- Well-formedness the database guarantees: assignment ids are unique and
below the autoincrement cursor. -/
def WFIds (st : AppState) : Prop :=
  (st.assignments.map (fun a => a.id)).Nodup
    ∧ ∀ a ∈ st.assignments, a.id < st.nextId

/-- The budget-ledger invariant together with `WFIds`. -/
def GoodState (st : AppState) : Prop :=
  WFIds st ∧ st.minBudget = costSum st ∧ st.totalWattage = wattSum st

instance (st : AppState) : Decidable (WFIds st) := by
  unfold WFIds; infer_instance

instance (st : AppState) : Decidable (GoodState st) := by
  unfold GoodState; infer_instance

lemma ledgerCost_eval {u : ℚ} {c : List SystemDevice} {a : UserHomeDevice}
    {sys : SystemDevice} (hu : a.userId = u)
    (hc : catalogFind c a.systemDeviceId = some sys) :
    ledgerCost u c a
      = if sys.deviceWorkAllDay then calculateDeviceCost a.chosenWatts 24
        else 0 := by
  simp [ledgerCost, hu, hc]

lemma ledgerWatt_eval {u : ℚ} {c : List SystemDevice} {a : UserHomeDevice}
    {sys : SystemDevice} (hu : a.userId = u)
    (hc : catalogFind c a.systemDeviceId = some sys) :
    ledgerWatt u c a = if sys.deviceWorkAllDay then a.chosenWatts else 0 := by
  simp [ledgerWatt, hu, hc]

lemma ledgerCost_congr {u : ℚ} {c : List SystemDevice}
    {a b : UserHomeDevice} (h3 : b.chosenWatts = a.chosenWatts)
    (h1 : b.userId = a.userId)
    (h2 : b.systemDeviceId = a.systemDeviceId) :
    ledgerCost u c b = ledgerCost u c a := by
  simp [ledgerCost, h1, h2, h3]

lemma ledgerWatt_congr {u : ℚ} {c : List SystemDevice}
    {a b : UserHomeDevice} (h3 : b.chosenWatts = a.chosenWatts)
    (h1 : b.userId = a.userId)
    (h2 : b.systemDeviceId = a.systemDeviceId) :
    ledgerWatt u c b = ledgerWatt u c a := by
  simp [ledgerWatt, h1, h2, h3]

lemma map_ite_id {i : ℚ} {g : UserHomeDevice → UserHomeDevice}
    {l : List UserHomeDevice} (h : ∀ b ∈ l, ¬(b.id = i)) :
    l.map (fun b => if b.id = i then g b else b) = l := by
  induction l with
  | nil => rfl
  | cons x t ih =>
    simp only [List.map_cons]
    rw [if_neg (h x (List.mem_cons_self x t)), ih]
    intro b hb
    exact h b (List.mem_cons_of_mem x hb)

lemma sum_map_replace (f : UserHomeDevice → ℚ)
    (g : UserHomeDevice → UserHomeDevice) (i : ℚ) :
    ∀ (l : List UserHomeDevice) (a : UserHomeDevice), a ∈ l → a.id = i →
      (l.map (fun b => b.id)).Nodup →
      ((l.map (fun b => if b.id = i then g b else b)).map f).sum
        = (l.map f).sum - f a + f (g a) := by
  intro l
  induction l with
  | nil => intro a ha; exact absurd ha (List.not_mem_nil a)
  | cons x t ih =>
    intro a ha haid hnd
    simp only [List.map_cons, List.nodup_cons] at hnd ⊢
    rcases List.mem_cons.mp ha with rfl | hat
    · rw [if_pos haid]
      have ht : ∀ b ∈ t, ¬(b.id = i) := by
        intro b hb hbid
        exact hnd.1 (haid ▸ hbid ▸ List.mem_map_of_mem (fun c => c.id) hb)
      rw [map_ite_id ht]
      simp only [List.sum_cons]
      ring
    · have hxi : ¬(x.id = i) := by
        intro hxid
        exact hnd.1 (hxid ▸ haid ▸ List.mem_map_of_mem (fun c => c.id) hat)
      rw [if_neg hxi]
      simp only [List.sum_cons, ih a hat haid hnd.2]
      ring

lemma sum_map_remove (f : UserHomeDevice → ℚ) (i : ℚ) :
    ∀ (l : List UserHomeDevice) (a : UserHomeDevice), a ∈ l → a.id = i →
      (l.map (fun b => b.id)).Nodup →
      ((l.filter (fun b => decide ¬(b.id = i))).map f).sum
        = (l.map f).sum - f a := by
  intro l
  induction l with
  | nil => intro a ha; exact absurd ha (List.not_mem_nil a)
  | cons x t ih =>
    intro a ha haid hnd
    simp only [List.map_cons, List.nodup_cons] at hnd
    rcases List.mem_cons.mp ha with rfl | hat
    · have ht : ∀ b ∈ t, ¬(b.id = i) := by
        intro b hb hbid
        exact hnd.1 (haid ▸ hbid ▸ List.mem_map_of_mem (fun c => c.id) hb)
      rw [List.filter_cons_of_neg (by simpa using haid)]
      rw [List.filter_eq_self.mpr (by intro b hb; simpa using ht b hb)]
      simp only [List.map_cons, List.sum_cons]
      ring
    · have hxi : ¬(x.id = i) := by
        intro hxid
        exact hnd.1 (hxid ▸ haid ▸ List.mem_map_of_mem (fun c => c.id) hat)
      rw [List.filter_cons_of_pos (by simpa using hxi)]
      simp only [List.map_cons, List.sum_cons, ih a hat haid hnd.2]
      ring

lemma goodState_add (st : AppState) (hid cw tv : ReqVal) (h : GoodState st) :
    GoodState (addHomeDeviceToUser st hid cw tv).2 := by
  obtain ⟨⟨hnd, hbound⟩, hmin, hwatt⟩ := h
  simp only [addHomeDeviceToUser]
  split
  · exact ⟨⟨hnd, hbound⟩, hmin, hwatt⟩
  · split
    · exact ⟨⟨hnd, hbound⟩, hmin, hwatt⟩
    · split
      · exact ⟨⟨hnd, hbound⟩, hmin, hwatt⟩
      · rename_i sys hcat
        split
        · rename_i hmem
          have hfresh : ∀ x ∈ st.assignments.map (fun a => a.id),
              x ≠ st.nextId := by
            intro x hx
            rcases List.mem_map.mp hx with ⟨b, hb, rfl⟩
            exact ne_of_lt (hbound b hb)
          have hnd' : ∀ (n : UserHomeDevice), n.id = st.nextId →
              ((st.assignments ++ [n]).map (fun a => a.id)).Nodup := by
            intro n hn
            rw [List.map_append]
            refine List.Nodup.append hnd (List.nodup_singleton _) ?_
            intro x hx hx2
            rcases List.mem_singleton.mp hx2 with rfl
            exact hfresh _ hx (hn ▸ rfl)
          have hbd : ∀ (n : UserHomeDevice), n.id = st.nextId →
              ∀ a ∈ st.assignments ++ [n], a.id < st.nextId + 1 := by
            intro n hn a ha
            rcases List.mem_append.mp ha with ha | ha
            · exact lt_trans (hbound a ha) (lt_add_one _)
            · rcases List.mem_singleton.mp ha with rfl
              rw [hn]
              exact lt_add_one _
          split
          · rename_i hday
            refine ⟨⟨hnd' _ rfl, hbd _ rfl⟩, ?_, ?_⟩
            · simp only [costSum, List.map_append, List.map_cons, List.map_nil,
                List.sum_append, List.sum_cons, List.sum_nil, ledgerCost, hcat,
                hday]
              rw [hmin]
              simp only [costSum, if_true]
              ring
            · simp only [wattSum, List.map_append, List.map_cons, List.map_nil,
                List.sum_append, List.sum_cons, List.sum_nil, ledgerWatt, hcat,
                hday]
              rw [hwatt]
              simp only [wattSum, if_true]
              ring
          · rename_i hday
            have hday' : sys.deviceWorkAllDay = false := by simpa using hday
            refine ⟨⟨hnd' _ rfl, hbd _ rfl⟩, ?_, ?_⟩
            · simp only [costSum, List.map_append, List.map_cons, List.map_nil,
                List.sum_append, List.sum_cons, List.sum_nil, ledgerCost, hcat,
                hday']
              rw [hmin]
              simp [costSum]
            · simp only [wattSum, List.map_append, List.map_cons, List.map_nil,
                List.sum_append, List.sum_cons, List.sum_nil, ledgerWatt, hcat,
                hday']
              rw [hwatt]
              simp [wattSum]
        · exact ⟨⟨hnd, hbound⟩, hmin, hwatt⟩

lemma updatePatch_chosenWatts (sys : SystemDevice) (cw tv : ReqVal)
    (b : UserHomeDevice) :
    (updatePatch sys cw tv b).chosenWatts
      = (if cw = ReqVal.undef then none
          else some (safeParseNumber cw 0)).getD b.chosenWatts := rfl

lemma goodState_update (st : AppState) (idv cw tv : ReqVal)
    (h : GoodState st) : GoodState (updateUserHomeDevice st idv cw tv).2 := by
  obtain ⟨⟨hnd, hbound⟩, hmin, hwatt⟩ := h
  simp only [updateUserHomeDevice]
  split
  · exact ⟨⟨hnd, hbound⟩, hmin, hwatt⟩
  · split
    · exact ⟨⟨hnd, hbound⟩, hmin, hwatt⟩
    · rename_i a hfind
      split
      · exact ⟨⟨hnd, hbound⟩, hmin, hwatt⟩
      · rename_i sys hcat
        obtain ⟨hamem, haid, hauid⟩ := findAssignment_props hfind
        have hpu : (updatePatch sys cw tv a).userId = st.userId := hauid
        have hpc : catalogFind st.catalog
            (updatePatch sys cw tv a).systemDeviceId = some sys := hcat
        have hids : ((st.assignments.map (fun b =>
              if b.id = safeParseNumber idv 0 then updatePatch sys cw tv b
              else b)).map (fun a => a.id))
            = st.assignments.map (fun a => a.id) := by
          rw [List.map_map]
          apply List.map_congr_left
          intro b _
          by_cases hb : b.id = safeParseNumber idv 0 <;>
            simp [hb, updatePatch_id]
        have hwf : ((st.assignments.map (fun b =>
              if b.id = safeParseNumber idv 0 then updatePatch sys cw tv b
              else b)).map (fun a => a.id)).Nodup
            ∧ ∀ x ∈ st.assignments.map (fun b =>
                if b.id = safeParseNumber idv 0 then updatePatch sys cw tv b
                else b), x.id < st.nextId := by
          constructor
          · rw [hids]; exact hnd
          · intro x hx
            rcases List.mem_map.mp hx with ⟨b, hb, rfl⟩
            by_cases hbi : b.id = safeParseNumber idv 0
            · simp only [hbi, ite_true, updatePatch_id]
              exact hbi ▸ hbound b hb
            · simp only [hbi, ite_false]
              exact hbound b hb
        have hrepc := sum_map_replace (ledgerCost st.userId st.catalog)
          (updatePatch sys cw tv) (safeParseNumber idv 0) st.assignments a
          hamem haid hnd
        have hrepw := sum_map_replace (ledgerWatt st.userId st.catalog)
          (updatePatch sys cw tv) (safeParseNumber idv 0) st.assignments a
          hamem haid hnd
        split
        · rename_i w hw
          have hwval : (updatePatch sys cw tv a).chosenWatts = w := by
            rw [updatePatch_chosenWatts, hw]
            rfl
          split
          · split
            · rename_i hcond
              refine ⟨⟨hwf.1, hwf.2⟩, ?_, ?_⟩
              · simp only [costSum]
                rw [hrepc, ledgerCost_eval hauid hcat,
                  ledgerCost_eval hpu hpc, hwval]
                simp only [hcond.1, if_true]
                rw [hmin]
                simp only [costSum]
                ring
              · simp only [wattSum]
                rw [hrepw, ledgerWatt_eval hauid hcat,
                  ledgerWatt_eval hpu hpc, hwval]
                simp only [hcond.1, if_true]
                rw [hwatt]
                simp only [wattSum]
                ring
            · rename_i hcond
              have hfeq : ledgerCost st.userId st.catalog
                    (updatePatch sys cw tv a)
                  = ledgerCost st.userId st.catalog a := by
                by_cases hd : sys.deviceWorkAllDay = true
                · have hold : a.chosenWatts = w := by
                    by_contra hne
                    exact hcond ⟨hd, hne⟩
                  exact ledgerCost_congr (by rw [hwval, hold]) rfl rfl
                · have hd' : sys.deviceWorkAllDay = false := by simpa using hd
                  rw [ledgerCost_eval hpu hpc, ledgerCost_eval hauid hcat]
                  simp [hd']
              have hgeq : ledgerWatt st.userId st.catalog
                    (updatePatch sys cw tv a)
                  = ledgerWatt st.userId st.catalog a := by
                by_cases hd : sys.deviceWorkAllDay = true
                · have hold : a.chosenWatts = w := by
                    by_contra hne
                    exact hcond ⟨hd, hne⟩
                  exact ledgerWatt_congr (by rw [hwval, hold]) rfl rfl
                · have hd' : sys.deviceWorkAllDay = false := by simpa using hd
                  rw [ledgerWatt_eval hpu hpc, ledgerWatt_eval hauid hcat]
                  simp [hd']
              refine ⟨⟨hwf.1, hwf.2⟩, ?_, ?_⟩
              · simp only [costSum]
                rw [hrepc, hfeq]
                rw [hmin]
                simp only [costSum]
                ring
              · simp only [wattSum]
                rw [hrepw, hgeq]
                rw [hwatt]
                simp only [wattSum]
                ring
          · exact ⟨⟨hnd, hbound⟩, hmin, hwatt⟩
        · rename_i hw
          have hpres : (updatePatch sys cw tv a).chosenWatts
              = a.chosenWatts := by
            rw [updatePatch_chosenWatts, hw]
            rfl
          refine ⟨⟨hwf.1, hwf.2⟩, ?_, ?_⟩
          · simp only [costSum]
            rw [hrepc, ledgerCost_congr hpres rfl rfl]
            rw [hmin]
            simp only [costSum]
            ring
          · simp only [wattSum]
            rw [hrepw, ledgerWatt_congr hpres rfl rfl]
            rw [hwatt]
            simp only [wattSum]
            ring

lemma goodState_del (st : AppState) (idv : ReqVal) (h : GoodState st) :
    GoodState (deleteUserHomeDevice st idv).2 := by
  obtain ⟨⟨hnd, hbound⟩, hmin, hwatt⟩ := h
  simp only [deleteUserHomeDevice]
  split
  · exact ⟨⟨hnd, hbound⟩, hmin, hwatt⟩
  · split
    · exact ⟨⟨hnd, hbound⟩, hmin, hwatt⟩
    · rename_i a hfind
      split
      · exact ⟨⟨hnd, hbound⟩, hmin, hwatt⟩
      · rename_i sys hcat
        obtain ⟨hamem, haid, hauid⟩ := findAssignment_props hfind
        have hremc := sum_map_remove (ledgerCost st.userId st.catalog)
          (safeParseNumber idv 0) st.assignments a hamem haid hnd
        have hremw := sum_map_remove (ledgerWatt st.userId st.catalog)
          (safeParseNumber idv 0) st.assignments a hamem haid hnd
        have hsub : List.Sublist
            (st.assignments.filter
              (fun b => decide ¬(b.id = safeParseNumber idv 0)))
            st.assignments := List.filter_sublist _
        have hwf1 : ((st.assignments.filter
            (fun b => decide ¬(b.id = safeParseNumber idv 0))).map
              (fun a => a.id)).Nodup := hnd.sublist (hsub.map _)
        have hwf2 : ∀ x ∈ st.assignments.filter
            (fun b => decide ¬(b.id = safeParseNumber idv 0)),
              x.id < st.nextId := fun x hx => hbound x (hsub.subset hx)
        split
        · rename_i hcond
          refine ⟨⟨hwf1, hwf2⟩, ?_, ?_⟩
          · simp only [costSum]
            rw [hremc, ledgerCost_eval hauid hcat]
            simp only [hcond.1, if_true]
            rw [hmin]
            simp only [costSum]
          · simp only [wattSum]
            rw [hremw, ledgerWatt_eval hauid hcat]
            simp only [hcond.1, if_true]
            rw [hwatt]
            simp only [wattSum]
        · rename_i hcond
          have hfa : ledgerCost st.userId st.catalog a = 0 := by
            rw [ledgerCost_eval hauid hcat]
            by_cases hd : sys.deviceWorkAllDay = true
            · have hz : a.chosenWatts = 0 := by
                by_contra hne
                exact hcond ⟨hd, hne⟩
              simp [hd, hz, calculateDeviceCost]
            · have hd' : sys.deviceWorkAllDay = false := by simpa using hd
              simp [hd']
          have hga : ledgerWatt st.userId st.catalog a = 0 := by
            rw [ledgerWatt_eval hauid hcat]
            by_cases hd : sys.deviceWorkAllDay = true
            · have hz : a.chosenWatts = 0 := by
                by_contra hne
                exact hcond ⟨hd, hne⟩
              simp [hd, hz]
            · have hd' : sys.deviceWorkAllDay = false := by simpa using hd
              simp [hd']
          refine ⟨⟨hwf1, hwf2⟩, ?_, ?_⟩
          · simp only [costSum]
            rw [hremc, hfa]
            rw [hmin]
            simp only [costSum]
            ring
          · simp only [wattSum]
            rw [hremw, hga]
            rw [hwatt]
            simp only [wattSum]
            ring

lemma goodState_applyOp (st : AppState) (op : Op) (h : GoodState st) :
    GoodState (applyOp st op) := by
  cases op with
  | add hid cw tv => exact goodState_add st hid cw tv h
  | update i cw tv => exact goodState_update st i cw tv h
  | del i => exact goodState_del st i h

/-- The bookkeeping the controller's own arithmetic intends: over the
idealized model (exact-rational aggregate columns, row write and aggregate
delta applied together), every request sequence keeps `minBudget` equal to the
sum of `cost(chosenWatts, 24)` over the user's current all-day assignments and
`totalWattage` equal to the sum of their `chosenWatts`.  This is NOT a
property of the program: the storage layer declares the aggregate columns
`Int` and the two writes are not atomic, so the fractional increments this
bookkeeping stores cannot exist there — see the faithful integer-column model
below. -/
theorem ledger_invariant (ops : List Op) (st : AppState)
    (hwf : WFIds st)
    (hinv : st.minBudget = costSum st ∧ st.totalWattage = wattSum st) :
    (applyOps st ops).minBudget = costSum (applyOps st ops)
      ∧ (applyOps st ops).totalWattage = wattSum (applyOps st ops) := by
  induction ops generalizing st with
  | nil => exact hinv
  | cons op rest ih =>
    have h' := goodState_applyOp st op ⟨hwf, hinv⟩
    exact ih (applyOp st op) h'.1 h'.2

theorem ledger_invariant_witness :
    (applyOps sampleState
        [Op.add (ReqVal.val 1) (ReqVal.val 60) ReqVal.undef,
          Op.add (ReqVal.val 2) (ReqVal.val 40) (ReqVal.val 5),
          Op.update (ReqVal.val 10) (ReqVal.val 100) ReqVal.undef,
          Op.del (ReqVal.val 11)]).minBudget
        = costSum (applyOps sampleState
            [Op.add (ReqVal.val 1) (ReqVal.val 60) ReqVal.undef,
              Op.add (ReqVal.val 2) (ReqVal.val 40) (ReqVal.val 5),
              Op.update (ReqVal.val 10) (ReqVal.val 100) ReqVal.undef,
              Op.del (ReqVal.val 11)])
      ∧ (applyOps sampleState
            [Op.add (ReqVal.val 1) (ReqVal.val 60) ReqVal.undef,
              Op.add (ReqVal.val 2) (ReqVal.val 40) (ReqVal.val 5),
              Op.update (ReqVal.val 10) (ReqVal.val 100) ReqVal.undef,
              Op.del (ReqVal.val 11)]).totalWattage
          = wattSum (applyOps sampleState
              [Op.add (ReqVal.val 1) (ReqVal.val 60) ReqVal.undef,
                Op.add (ReqVal.val 2) (ReqVal.val 40) (ReqVal.val 5),
                Op.update (ReqVal.val 10) (ReqVal.val 100) ReqVal.undef,
                Op.del (ReqVal.val 11)]) :=
  ledger_invariant
    [Op.add (ReqVal.val 1) (ReqVal.val 60) ReqVal.undef,
      Op.add (ReqVal.val 2) (ReqVal.val 40) (ReqVal.val 5),
      Op.update (ReqVal.val 10) (ReqVal.val 100) ReqVal.undef,
      Op.del (ReqVal.val 11)]
    sampleState (by decide) (by decide)

/-- The filter inside both recommendation paths: the wattage options of a
catalog entry whose projected monthly cost
(`calculateDeviceCost(w, allDay ? 24 : 8) * 30`) fits the remaining budget. -/
def affordableWatts (rate remaining : ℚ) (d : SystemDevice) : List ℚ :=
  d.wattsOptions.filter (fun watts =>
    decide (calculateDeviceCost watts (if d.deviceWorkAllDay then 24 else 8)
        rate * 30 ≤ remaining))

/-- src/src/controllers/userHomeDeviceController.js `getRecommendedDevices`:
`remaining = safeParseNumber(user.budget, 0) - safeParseNumber(user.minBudget,
0)` — on stored numbers `safeParseNumber` is the identity — and the catalog is
filtered to entries with at least one affordable wattage option, at the default
rate `0.68`. -/
def getRecommendedDevices (st : AppState) : List SystemDevice :=
  st.catalog.filter (fun d =>
    !(affordableWatts (68/100) (st.budget - st.minBudget) d).isEmpty)

/-- `Math.min(...list)`: `none` models the `Infinity` of an empty spread,
which cannot occur at the use sites because the list is a filter result already
checked to be non-empty. -/
def mathMin : List ℚ → Option ℚ
  | [] => none
  | x :: xs => some (xs.foldl min x)

/-- src/src/services/aiRecommendationService.js `getAIRecommendations`: the
`availableDevices` list — catalog entries with at least one affordable wattage
option, each paired with its `affordableWattage = Math.min(...affordable
options)`. -/
def availableDevices (rate remaining : ℚ) (devices : List SystemDevice) :
    List (SystemDevice × ℚ) :=
  (devices.filter (fun d => !(affordableWatts rate remaining d).isEmpty)).map
    (fun d => (d, (mathMin (affordableWatts rate remaining d)).getD 0))

lemma foldl_min_mem (x : ℚ) (xs : List ℚ) : xs.foldl min x ∈ x :: xs := by
  induction xs generalizing x with
  | nil => simp
  | cons y ys ih =>
    simp only [List.foldl_cons]
    rcases List.mem_cons.mp (ih (min x y)) with h | h
    · rcases min_choice x y with hc | hc <;> rw [h, hc]
      · exact List.mem_cons_self _ _
      · exact List.mem_cons_of_mem _ (List.mem_cons_self _ _)
    · exact List.mem_cons_of_mem _ (List.mem_cons_of_mem _ h)

lemma foldl_min_le (x : ℚ) (xs : List ℚ) :
    ∀ y ∈ x :: xs, xs.foldl min x ≤ y := by
  induction xs generalizing x with
  | nil =>
    intro y hy
    rcases List.mem_singleton.mp hy with rfl
    exact le_refl _
  | cons z zs ih =>
    intro y hy
    simp only [List.foldl_cons]
    rcases List.mem_cons.mp hy with rfl | hy2
    · exact le_trans (ih (min y z) (min y z) (List.mem_cons_self _ _))
        (min_le_left _ _)
    · rcases List.mem_cons.mp hy2 with rfl | hy3
      · exact le_trans (ih (min x y) (min x y) (List.mem_cons_self _ _))
          (min_le_right _ _)
      · exact ih (min x z) y (List.mem_cons_of_mem _ hy3)

lemma affordableWatts_mem (rate remaining : ℚ) (d : SystemDevice) (w : ℚ) :
    w ∈ affordableWatts rate remaining d
      ↔ w ∈ d.wattsOptions
          ∧ calculateDeviceCost w (if d.deviceWorkAllDay then 24 else 8) rate
              * 30 ≤ remaining := by
  simp [affordableWatts, List.mem_filter]

lemma affordableWatts_ne_nil (rate remaining : ℚ) (d : SystemDevice) :
    (!(affordableWatts rate remaining d).isEmpty) = true
      ↔ ∃ w ∈ d.wattsOptions,
          calculateDeviceCost w (if d.deviceWorkAllDay then 24 else 8) rate
              * 30 ≤ remaining := by
  rw [Bool.not_eq_true', List.isEmpty_eq_false_iff_exists_mem]
  constructor
  · rintro ⟨w, hw⟩
    rcases (affordableWatts_mem rate remaining d w).mp hw with ⟨h1, h2⟩
    exact ⟨w, h1, h2⟩
  · rintro ⟨w, h1, h2⟩
    exact ⟨w, (affordableWatts_mem rate remaining d w).mpr ⟨h1, h2⟩⟩

/-- Claim C2: with `remaining = budget - minBudget`, a catalog entry is in the
recommendation result iff at least one of its wattage options `w` satisfies
`cost(w, allDay ? 24 : 8) * 30 ≤ remaining` (first conjunct: the user-facing
controller at the default rate; second: the AI service's `availableDevices`),
and the representative `affordableWattage` paired with an included entry is
the minimum option satisfying the condition (third conjunct). -/
theorem recommendation_filter :
    (∀ (st : AppState) (d : SystemDevice),
        d ∈ getRecommendedDevices st
          ↔ d ∈ st.catalog
              ∧ ∃ w ∈ d.wattsOptions,
                calculateDeviceCost w (if d.deviceWorkAllDay then 24 else 8)
                    * 30 ≤ st.budget - st.minBudget)
      ∧ (∀ (rate remaining : ℚ) (devices : List SystemDevice)
            (d : SystemDevice),
          (∃ w, (d, w) ∈ availableDevices rate remaining devices)
            ↔ d ∈ devices
                ∧ ∃ w ∈ d.wattsOptions,
                  calculateDeviceCost w
                      (if d.deviceWorkAllDay then 24 else 8) rate * 30
                    ≤ remaining)
      ∧ (∀ (rate remaining : ℚ) (devices : List SystemDevice)
            (d : SystemDevice) (w : ℚ),
          (d, w) ∈ availableDevices rate remaining devices →
          w ∈ d.wattsOptions
            ∧ calculateDeviceCost w (if d.deviceWorkAllDay then 24 else 8)
                rate * 30 ≤ remaining
            ∧ ∀ w' ∈ d.wattsOptions,
                calculateDeviceCost w' (if d.deviceWorkAllDay then 24 else 8)
                    rate * 30 ≤ remaining → w ≤ w') := by
  refine ⟨?_, ?_, ?_⟩
  · intro st d
    rw [getRecommendedDevices, List.mem_filter, affordableWatts_ne_nil]
  · intro rate remaining devices d
    constructor
    · rintro ⟨w, hw⟩
      rcases List.mem_map.mp hw with ⟨d', hd', heq⟩
      have hfst : d' = d := congrArg Prod.fst heq
      subst hfst
      rcases List.mem_filter.mp hd' with ⟨hmem, hne⟩
      exact ⟨hmem, (affordableWatts_ne_nil rate remaining d').mp hne⟩
    · rintro ⟨hd, w, hw1, hw2⟩
      exact ⟨(mathMin (affordableWatts rate remaining d)).getD 0,
        List.mem_map.mpr ⟨d, List.mem_filter.mpr ⟨hd,
          (affordableWatts_ne_nil rate remaining d).mpr ⟨w, hw1, hw2⟩⟩, rfl⟩⟩
  · intro rate remaining devices d w hw
    rcases List.mem_map.mp hw with ⟨d', hd', heq⟩
    have hfst : d' = d := congrArg Prod.fst heq
    subst hfst
    have hsnd : (mathMin (affordableWatts rate remaining d')).getD 0 = w :=
      congrArg Prod.snd heq
    rcases List.mem_filter.mp hd' with ⟨hmem, hne⟩
    cases haff : affordableWatts rate remaining d' with
    | nil =>
      rw [haff] at hne
      simp at hne
    | cons x xs =>
      rw [haff] at hsnd
      simp only [mathMin, Option.getD_some] at hsnd
      have hwmem : w ∈ affordableWatts rate remaining d' := by
        rw [haff, ← hsnd]
        exact foldl_min_mem x xs
      rcases (affordableWatts_mem rate remaining d' w).mp hwmem with ⟨h1, h2⟩
      refine ⟨h1, h2, ?_⟩
      intro w' hw1' hw2'
      have hw'aff : w' ∈ affordableWatts rate remaining d' :=
        (affordableWatts_mem rate remaining d' w').mpr ⟨hw1', hw2'⟩
      rw [haff] at hw'aff
      rw [← hsnd]
      exact foldl_min_le x xs w' hw'aff

theorem recommendation_filter_witness :
    sampleFan ∈ getRecommendedDevices sampleState
      ∧ (40 : ℚ) ∈ sampleFan.wattsOptions
      ∧ calculateDeviceCost 40 (if sampleFan.deviceWorkAllDay then 24 else 8)
          (68/100) * 30 ≤ 600
      ∧ (40 : ℚ) ≤ 75 :=
  ⟨(recommendation_filter.1 sampleState sampleFan).mpr
      ⟨by decide, 40, by decide,
        by norm_num [calculateDeviceCost, sampleFan, sampleState]⟩,
    (recommendation_filter.2.2 (68/100) 600 [sampleAllDay, sampleFan]
        sampleFan 40 (by norm_num [availableDevices, affordableWatts,
          sampleAllDay, sampleFan, mathMin, calculateDeviceCost,
          List.filter])).1,
    (recommendation_filter.2.2 (68/100) 600 [sampleAllDay, sampleFan]
        sampleFan 40 (by norm_num [availableDevices, affordableWatts,
          sampleAllDay, sampleFan, mathMin, calculateDeviceCost,
          List.filter])).2.1,
    (recommendation_filter.2.2 (68/100) 600 [sampleAllDay, sampleFan]
        sampleFan 40 (by norm_num [availableDevices, affordableWatts,
          sampleAllDay, sampleFan, mathMin, calculateDeviceCost,
          List.filter])).2.2 75 (by decide)
      (by norm_num [calculateDeviceCost, sampleFan])⟩

/-- The `/uploads/` path marker checked before deleting a stored image. -/
def uploadsDir : List Char := '/' :: 'u' :: 'p' :: 'l' :: 'o' :: 'a' :: 'd'
  :: 's' :: '/' :: []

/-- src/src/controllers/systemDevicesController.js `deleteSystemDevice`:
reject a missing or non-numeric id (400; `idOpt` models the outcome of
`parseInt(req.params.id)`, `none` when it is falsy or `NaN`), reject an
unknown catalog entry (404), reject with 409 while any `userHomeDevice` row
references the entry; otherwise remove the stored image file when the entry's
`img` is set and starts with `/uploads/`, and delete the entry.  The state is
the catalog, the full assignment table (all users) and the set of stored image
files; errors leave all of it unchanged. -/
def deleteSystemDevice (catalog : List SystemDevice)
    (assignments : List UserHomeDevice) (files : List (List Char))
    (idOpt : Option ℤ) : Resp × List SystemDevice × List (List Char) :=
  match idOpt with
  | none => (.err 400 "Invalid device ID", catalog, files)
  | some i =>
    match catalogFind catalog (i : ℚ) with
    | none => (.err 404 "System device not found", catalog, files)
    | some existingDevice =>
      let linkedDevicesCount := (assignments.filter
        (fun a => decide (a.systemDeviceId = (i : ℚ)))).length
      if linkedDevicesCount > 0 then
        (.err 409 "Cannot delete device as it is linked to user home devices",
          catalog, files)
      else
        let files' :=
          match existingDevice.img with
          | some p =>
            if uploadsDir.isPrefixOf p then
              files.filter (fun q => decide ¬(q = p))
            else files
          | none => files
        (.ok, catalog.filter (fun d => decide ¬(d.id = (i : ℚ))), files')

/-- Claim C6: deleting a catalog entry referenced by at least one assignment
is rejected with a 409 conflict and changes nothing; deleting an unreferenced
entry succeeds (200), removes every catalog entry with that id while keeping
all others, and removes the entry's stored image file (the one its `img`
points to under `/uploads/`). -/
theorem delete_catalog_entry (catalog : List SystemDevice)
    (assignments : List UserHomeDevice) (files : List (List Char)) (i : ℤ)
    (d : SystemDevice) (hfind : catalogFind catalog (i : ℚ) = some d) :
    ((∃ a ∈ assignments, a.systemDeviceId = (i : ℚ)) →
        (∃ m, (deleteSystemDevice catalog assignments files (some i)).1
            = Resp.err 409 m)
          ∧ (deleteSystemDevice catalog assignments files (some i)).2.1
              = catalog
          ∧ (deleteSystemDevice catalog assignments files (some i)).2.2
              = files)
      ∧ ((∀ a ∈ assignments, a.systemDeviceId ≠ (i : ℚ)) →
          (deleteSystemDevice catalog assignments files (some i)).1 = Resp.ok
            ∧ (∀ e ∈ (deleteSystemDevice catalog assignments files
                (some i)).2.1, e.id ≠ (i : ℚ))
            ∧ (∀ e ∈ catalog, e.id ≠ (i : ℚ) →
                e ∈ (deleteSystemDevice catalog assignments files
                  (some i)).2.1)
            ∧ ∀ p, d.img = some p → uploadsDir.isPrefixOf p = true →
                p ∉ (deleteSystemDevice catalog assignments files
                  (some i)).2.2) := by
  constructor
  · intro ⟨a, ha, hasys⟩
    simp only [deleteSystemDevice, hfind]
    have hpos : 0 < (assignments.filter
        (fun a => decide (a.systemDeviceId = (i : ℚ)))).length := by
      apply List.length_pos.mpr
      intro hnil
      have : a ∈ assignments.filter
          (fun a => decide (a.systemDeviceId = (i : ℚ))) :=
        List.mem_filter.mpr ⟨ha, by simpa using hasys⟩
      rw [hnil] at this
      exact List.not_mem_nil a this
    rw [if_pos hpos]
    exact ⟨⟨_, rfl⟩, rfl, rfl⟩
  · intro hnone
    simp only [deleteSystemDevice, hfind]
    have hzero : ¬(0 < (assignments.filter
        (fun a => decide (a.systemDeviceId = (i : ℚ)))).length) := by
      rw [List.filter_eq_nil.mpr (by intro a ha; simpa using hnone a ha)]
      simp
    rw [if_neg hzero]
    refine ⟨rfl, ?_, ?_, ?_⟩
    · intro e he
      have := List.mem_filter.mp he
      simpa using this.2
    · intro e he hne
      exact List.mem_filter.mpr ⟨he, by simpa using hne⟩
    · intro p himg hpre hmem
      rw [himg] at hmem
      simp only [hpre, if_pos rfl] at hmem
      have := List.mem_filter.mp hmem
      simp at this

/-- A stored image path under `/uploads/`. -/
def lampImg : List Char := "/uploads/images/lamp.png".toList

/-- A catalog entry with a stored image, used by the delete witness. -/
def sampleLamp : SystemDevice :=
  { id := 3, name := ['l'], img := some lampImg, wattsOptions := [5],
    deviceWorkAllDay := false }

theorem delete_catalog_entry_witness :
    ((deleteSystemDevice [sampleAllDay] [sampleAssign] [] (some 1)).2.1
        = [sampleAllDay])
      ∧ (deleteSystemDevice [sampleLamp] [sampleAssignFan] [lampImg]
          (some 3)).1 = Resp.ok
      ∧ lampImg ∉ (deleteSystemDevice [sampleLamp] [sampleAssignFan]
          [lampImg] (some 3)).2.2 :=
  ⟨((delete_catalog_entry [sampleAllDay] [sampleAssign] [] 1 sampleAllDay
        (by decide)).1 ⟨sampleAssign, by decide, by decide⟩).2.1,
    ((delete_catalog_entry [sampleLamp] [sampleAssignFan] [lampImg] 3
        sampleLamp (by decide)).2 (by decide)).1,
    ((delete_catalog_entry [sampleLamp] [sampleAssignFan] [lampImg] 3
        sampleLamp (by decide)).2 (by decide)).2.2.2 lampImg rfl (by decide)⟩

/-- A parsed JSON value (the possible results of `JSON.parse`). -/
inductive Json where
  | null
  | bool (b : Bool)
  | num (q : ℚ)
  | str (s : String)
  | arr (elems : List Json)
  | obj (fields : List (String × Json))

/-- JS property access `value.key` on a parse result: a field of an object,
`undefined` (= `none`) otherwise. -/
def getField : Json → String → Option Json
  | .obj fields, key => (fields.find? (fun p => decide (p.1 = key))).map
      (fun p => p.2)
  | _, _ => none

/-- JS truthiness of a parsed JSON value (`NaN` cannot be a parse result). -/
def jsTruthy : Json → Bool
  | .null => false
  | .bool b => b
  | .num q => decide ¬(q = 0)
  | .str s => decide ¬(s = "")
  | .arr _ => true
  | .obj _ => true

/-- `Array.isArray`. -/
def isJsonArray : Json → Bool
  | .arr _ => true
  | _ => false

/-- The backtick character of a Markdown code fence. -/
def backtick : Char := Char.ofNat 96

/-- The first occurrence of the fence marker (three backticks) in a string:
`some (before, after)` splits around it, scanning left to right without
overlap, exactly as both the regex and `String.prototype.match` do. -/
def findFence : List Char → Option (List Char × List Char)
  | [] => none
  | c :: rest =>
    if c = backtick ∧ rest.take 2 = [backtick, backtick] then
      some ([], rest.drop 2)
    else (findFence rest).map (fun p => (c :: p.1, p.2))

/-- `String.prototype.trim` (over the ASCII whitespace the relevant strings
contain). -/
def trimChars (s : List Char) : List Char :=
  ((s.dropWhile Char.isWhitespace).reverse.dropWhile
    Char.isWhitespace).reverse

/-- src/src/services/aiRecommendationService.js, the cleaning step of
`getAIRecommendations`: match the response against
`/(three backticks)(?:json)?\s*([\s\S]*?)(three backticks)/`; when it matches
with a truthy (non-empty) capture group, the capture trimmed replaces the
response, otherwise the response is parsed as is.  The capture is the text
between the first fence pair, minus a leading `json` tag and leading
whitespace. -/
def stripCodeFence (s : List Char) : List Char :=
  match findFence s with
  | none => s
  | some (_, afterOpen) =>
    match findFence afterOpen with
    | none => s
    | some (mid, _) =>
      let core := if mid.take 4 = ['j', 's', 'o', 'n'] then mid.drop 4
                  else mid
      let capture := core.dropWhile Char.isWhitespace
      if capture = [] then s else trimChars capture

/-- One entry of the deterministic fallback recommendation list. -/
structure Recommendation where
  deviceId : ℚ
  deviceName : List Char
  deviceImage : Option (List Char)
  recommendedWattage : ℚ
  wattsOptions : List ℚ
  deviceWorkAllDay : Bool
  reasonForRecommendation : String
  estimatedMonthlyCost : ℚ
  estimatedSavings : ℚ

/-- src/src/services/aiRecommendationService.js `getFallbackRecommendations`:
filter the catalog to affordable entries, keep the first 3 (`slice(0, 3)`),
and format each with its minimal affordable wattage and projected monthly
cost. -/
def getFallbackRecommendations (rate remaining : ℚ)
    (devices : List SystemDevice) : List Recommendation :=
  ((devices.filter (fun d =>
      !(affordableWatts rate remaining d).isEmpty)).take 3).map
    (fun d =>
      let affordableWattage := (mathMin (affordableWatts rate remaining
        d)).getD 0
      { deviceId := d.id, deviceName := d.name, deviceImage := d.img,
        recommendedWattage := affordableWattage,
        wattsOptions := d.wattsOptions,
        deviceWorkAllDay := d.deviceWorkAllDay,
        reasonForRecommendation :=
          "This device fits within your remaining budget",
        estimatedMonthlyCost := calculateDeviceCost affordableWattage
            (if d.deviceWorkAllDay then 24 else 8) rate * 30,
        estimatedSavings := 0 })

/-- What the recommendation service hands back: the AI's parsed list (the
source then enriches each entry with catalog data, which no claim concerns),
or the deterministic fallback. -/
inductive AiOutcome where
  | fromAi (recommendations : List Json)
  | fallback (recommendations : List Recommendation)

/-- src/src/services/aiRecommendationService.js `getAIRecommendations`, from
the AI text response on: clean the Markdown fence, `JSON.parse` (the JS
builtin, abstracted as the `parse` parameter), require a truthy
`deviceRecommendations` field that `Array.isArray` accepts, and on any parse
error or shape violation fall back to `getFallbackRecommendations` — the
`catch` handlers make every failure land there. -/
def processAiResponse (parse : List Char → Option Json) (rate remaining : ℚ)
    (devices : List SystemDevice) (responseText : List Char) : AiOutcome :=
  match parse (stripCodeFence responseText) with
  | none => .fallback (getFallbackRecommendations rate remaining devices)
  | some parsedResult =>
    match getField parsedResult "deviceRecommendations" with
    | some v =>
      if jsTruthy v && isJsonArray v then
        match v with
        | .arr recs => .fromAi recs
        | _ => .fallback (getFallbackRecommendations rate remaining devices)
      else .fallback (getFallbackRecommendations rate remaining devices)
    | none => .fallback (getFallbackRecommendations rate remaining devices)

/-- The controller for `GET /ai/recommendations`
(`getAIDeviceRecommendations`): wraps the service result in a 200 response;
only a thrown exception would produce another status, and the service path
modelled here throws nowhere. -/
def getAIDeviceRecommendations (parse : List Char → Option Json)
    (rate remaining : ℚ) (devices : List SystemDevice)
    (responseText : List Char) : ℕ × AiOutcome :=
  (200, processAiResponse parse rate remaining devices responseText)

/-- An AI response that fences the payload `s` as a Markdown ```json block. -/
def fenceWrap (s : List Char) : List Char :=
  backtick :: backtick :: backtick :: 'j' :: 's' :: 'o' :: 'n' :: '\n'
    :: (s ++ '\n' :: backtick :: backtick :: backtick :: [])

lemma findFence_cons_ne (c : Char) (l : List Char) (hc : ¬(c = backtick)) :
    findFence (c :: l) = (findFence l).map (fun p => (c :: p.1, p.2)) := by
  simp only [findFence]
  rw [if_neg (fun h => hc h.1)]

lemma findFence_append_close (s : List Char) (h : findFence s = none) :
    findFence (s ++ '\n' :: backtick :: backtick :: backtick :: [])
      = some (s ++ ['\n'], []) := by
  induction s with
  | nil => decide
  | cons c t ih =>
    simp only [findFence] at h
    by_cases hcond : c = backtick ∧ t.take 2 = [backtick, backtick]
    · rw [if_pos hcond] at h
      exact Option.noConfusion h
    · rw [if_neg hcond] at h
      have ht : findFence t = none := by
        cases hft : findFence t with
        | none => rfl
        | some p =>
          rw [hft] at h
          simp at h
      have htake : ¬(c = backtick
          ∧ (t ++ '\n' :: backtick :: backtick :: backtick :: []).take 2
              = [backtick, backtick]) := by
        rintro ⟨hc, htk⟩
        rcases t with _ | ⟨x, _ | ⟨y, t'⟩⟩
        · exact absurd htk (by decide)
        · have htk' : [x, '\n'] = [backtick, backtick] := htk
          have h2 : '\n' = backtick := by
            injection htk' with h1 htl
            injection htl with h2 h3
          exact absurd h2 (by decide)
        · exact hcond ⟨hc, htk⟩
      rw [List.cons_append, findFence, if_neg htake, ih ht]
      simp

lemma dropWhile_append_of_ne_nil (p : Char → Bool) (s m : List Char)
    (h : s.dropWhile p ≠ []) :
    (s ++ m).dropWhile p = s.dropWhile p ++ m := by
  induction s with
  | nil => exact absurd rfl h
  | cons c t ih =>
    by_cases hc : p c = true
    · have h' : t.dropWhile p ≠ [] := by
        rwa [List.dropWhile_cons, if_pos hc] at h
      rw [List.cons_append, List.dropWhile_cons, if_pos hc,
        List.dropWhile_cons, if_pos hc]
      exact ih h'
    · rw [List.cons_append, List.dropWhile_cons, if_neg hc,
        List.dropWhile_cons, if_neg hc, List.cons_append]

lemma dropWhile_head_false (p : Char → Bool) :
    ∀ (l : List Char) (c : Char) (r : List Char),
      l.dropWhile p = c :: r → p c = false := by
  intro l
  induction l with
  | nil =>
    intro c r h
    exact absurd h (by simp)
  | cons x t ih =>
    intro c r h
    by_cases hx : p x = true
    · rw [List.dropWhile_cons, if_pos hx] at h
      exact ih c r h
    · rw [List.dropWhile_cons, if_neg hx] at h
      cases h
      simpa using hx

lemma trimChars_of_dropWhile_nil (s : List Char)
    (h : s.dropWhile Char.isWhitespace = []) : trimChars s = [] := by
  unfold trimChars
  rw [h]
  rfl

lemma trimChars_dropWhile_newline (s : List Char)
    (hx : s.dropWhile Char.isWhitespace ≠ []) :
    trimChars (s.dropWhile Char.isWhitespace ++ ['\n']) = trimChars s := by
  rcases hxe : s.dropWhile Char.isWhitespace with _ | ⟨c, r⟩
  · exact absurd hxe hx
  · have hc : Char.isWhitespace c = false := dropWhile_head_false _ s c r hxe
    unfold trimChars
    rw [hxe]
    rw [List.cons_append, List.dropWhile_cons, if_neg (by simp [hc])]
    rw [show (c :: (r ++ ['\n'])).reverse
        = '\n' :: (c :: r).reverse from by simp]
    rw [List.dropWhile_cons, if_pos (by decide)]

lemma stripCodeFence_fenceWrap (s : List Char) (hf : findFence s = none)
    (ht : trimChars s ≠ []) :
    stripCodeFence (fenceWrap s) = trimChars s := by
  have hx : s.dropWhile Char.isWhitespace ≠ [] := by
    intro hnil
    exact ht (trimChars_of_dropWhile_nil s hnil)
  have h1 : findFence (fenceWrap s)
      = some ([], 'j' :: 's' :: 'o' :: 'n' :: '\n'
          :: (s ++ '\n' :: backtick :: backtick :: backtick :: [])) := rfl
  have h2 : findFence ('j' :: 's' :: 'o' :: 'n' :: '\n'
      :: (s ++ '\n' :: backtick :: backtick :: backtick :: []))
      = some ('j' :: 's' :: 'o' :: 'n' :: '\n' :: (s ++ ['\n']), []) := by
    rw [findFence_cons_ne _ _ (by decide), findFence_cons_ne _ _ (by decide),
      findFence_cons_ne _ _ (by decide), findFence_cons_ne _ _ (by decide),
      findFence_cons_ne _ _ (by decide), findFence_append_close s hf]
    rfl
  simp only [stripCodeFence, h1, h2]
  rw [if_pos (show ('j' :: 's' :: 'o' :: 'n' :: '\n'
      :: (s ++ ['\n'])).take 4 = ['j', 's', 'o', 'n'] from rfl)]
  rw [show ('j' :: 's' :: 'o' :: 'n' :: '\n' :: (s ++ ['\n'])).drop 4
      = '\n' :: (s ++ ['\n']) from rfl]
  rw [show List.dropWhile Char.isWhitespace ('\n' :: (s ++ ['\n']))
      = List.dropWhile Char.isWhitespace (s ++ ['\n']) from by
    rw [List.dropWhile_cons, if_pos (by decide)]]
  rw [dropWhile_append_of_ne_nil _ s ['\n'] hx]
  rw [if_neg (by simp)]
  exact trimChars_dropWhile_newline s hx

/-- Claim C5: the AI response is stripped of surrounding Markdown code-fence
markup before `JSON.parse` (abstracted as the whitespace-insensitive `parse`),
so a fenced payload yields the same outcome as its un-fenced equivalent; a
response whose parse fails, or whose `deviceRecommendations` field is missing
or not a list, silently falls back to the deterministic rule; the fallback
returns at most 3 affordable catalog entries; and the endpoint always answers
200 with some recommendation set. -/
theorem ai_fallback :
    (∀ (parse : List Char → Option Json) (rate remaining : ℚ)
        (devices : List SystemDevice) (s : List Char),
        findFence s = none → trimChars s ≠ [] →
        parse (trimChars s) = parse s →
        processAiResponse parse rate remaining devices (fenceWrap s)
          = processAiResponse parse rate remaining devices s)
      ∧ (∀ (parse : List Char → Option Json) (rate remaining : ℚ)
          (devices : List SystemDevice) (r : List Char),
          parse (stripCodeFence r) = none →
          processAiResponse parse rate remaining devices r
            = AiOutcome.fallback
                (getFallbackRecommendations rate remaining devices))
      ∧ (∀ (parse : List Char → Option Json) (rate remaining : ℚ)
          (devices : List SystemDevice) (r : List Char) (j : Json),
          parse (stripCodeFence r) = some j →
          (∀ l, getField j "deviceRecommendations" ≠ some (Json.arr l)) →
          processAiResponse parse rate remaining devices r
            = AiOutcome.fallback
                (getFallbackRecommendations rate remaining devices))
      ∧ (∀ (rate remaining : ℚ) (devices : List SystemDevice),
          (getFallbackRecommendations rate remaining devices).length ≤ 3)
      ∧ (∀ (parse : List Char → Option Json) (rate remaining : ℚ)
          (devices : List SystemDevice) (r : List Char),
          (getAIDeviceRecommendations parse rate remaining devices r).1
            = 200) := by
  refine ⟨?_, ?_, ?_, ?_, ?_⟩
  · intro parse rate remaining devices s hf ht hp
    have hss : stripCodeFence s = s := by
      unfold stripCodeFence
      rw [hf]
    unfold processAiResponse
    rw [stripCodeFence_fenceWrap s hf ht, hss, hp]
  · intro parse rate remaining devices r hp
    unfold processAiResponse
    rw [hp]
  · intro parse rate remaining devices r j hp hfield
    have hred : processAiResponse parse rate remaining devices r
        = (match getField j "deviceRecommendations" with
          | some v =>
            if jsTruthy v && isJsonArray v then
              match v with
              | Json.arr recs => AiOutcome.fromAi recs
              | _ => AiOutcome.fallback
                  (getFallbackRecommendations rate remaining devices)
            else AiOutcome.fallback
                (getFallbackRecommendations rate remaining devices)
          | none => AiOutcome.fallback
              (getFallbackRecommendations rate remaining devices)) := by
      unfold processAiResponse
      rw [hp]
    rw [hred]
    cases hfv : getField j "deviceRecommendations" with
    | none => rfl
    | some v =>
      cases v with
      | arr l => exact absurd hfv (hfield l)
      | null => simp [jsTruthy, isJsonArray]
      | bool b => simp [jsTruthy, isJsonArray]
      | num q => simp [jsTruthy, isJsonArray]
      | str s => simp [jsTruthy, isJsonArray]
      | obj fields => simp [jsTruthy, isJsonArray]
  · intro rate remaining devices
    unfold getFallbackRecommendations
    rw [List.length_map]
    exact List.length_take_le 3 _
  · intro parse rate remaining devices r
    rfl

/-- A stand-in for `JSON.parse` in the witness: recognises exactly one good
string. -/
def parseStub (good : List Char) (payload : Json) :
    List Char → Option Json :=
  fun t => if t = good then some payload else none

/-- A structurally valid AI payload for the witness. -/
def samplePayload : Json :=
  Json.obj [("deviceRecommendations", Json.arr [])]

theorem ai_fallback_witness :
    (processAiResponse (parseStub "[1]".toList samplePayload) (68/100) 600
        [sampleAllDay, sampleFan] (fenceWrap "[1]".toList)
      = processAiResponse (parseStub "[1]".toList samplePayload) (68/100) 600
        [sampleAllDay, sampleFan] "[1]".toList)
    ∧ (processAiResponse (parseStub "[1]".toList samplePayload) (68/100) 600
        [sampleAllDay, sampleFan] "not json".toList
      = AiOutcome.fallback (getFallbackRecommendations (68/100) 600
          [sampleAllDay, sampleFan]))
    ∧ (processAiResponse (parseStub "7".toList (Json.num 3)) (68/100) 600
        [sampleAllDay, sampleFan] "7".toList
      = AiOutcome.fallback (getFallbackRecommendations (68/100) 600
          [sampleAllDay, sampleFan]))
    ∧ (getFallbackRecommendations (68/100) 600
        [sampleAllDay, sampleFan]).length ≤ 3
    ∧ (getAIDeviceRecommendations (parseStub "[1]".toList samplePayload)
        (68/100) 600 [sampleAllDay, sampleFan] "not json".toList).1 = 200 :=
  ⟨ai_fallback.1 (parseStub "[1]".toList samplePayload) (68/100) 600
      [sampleAllDay, sampleFan] "[1]".toList (by decide) (by decide)
      (by rw [show trimChars ("[1]".toList) = "[1]".toList from by decide]),
    ai_fallback.2.1 (parseStub "[1]".toList samplePayload) (68/100) 600
      [sampleAllDay, sampleFan] "not json".toList
      (by simp only [parseStub]; rw [if_neg (by decide)]),
    ai_fallback.2.2.1 (parseStub "7".toList (Json.num 3)) (68/100) 600
      [sampleAllDay, sampleFan] "7".toList (Json.num 3)
      (by simp only [parseStub]; rw [if_pos (by decide)])
      (fun l h => Option.noConfusion h),
    ai_fallback.2.2.2.1 (68/100) 600 [sampleAllDay, sampleFan],
    ai_fallback.2.2.2.2 (parseStub "[1]".toList samplePayload) (68/100) 600
      [sampleAllDay, sampleFan] "not json".toList⟩

/-- The stored state with the user's aggregate columns as the schema declares
them: prisma/schema.prisma gives `budget Int`, `totalWattage Int` and
`minBudget Int` (Postgres `INTEGER`), so the three aggregates are integers. -/
structure AppStateInt where
  userId : ℚ
  budget : ℤ
  minBudget : ℤ
  totalWattage : ℤ
  catalog : List SystemDevice
  assignments : List UserHomeDevice
  nextId : ℚ
deriving Repr, DecidableEq

/-- `prisma.userHomeDevice.findFirst({ where: { id, userId } })` over the
integer-column state. -/
def findAssignmentInt (st : AppStateInt) (i : ℚ) : Option UserHomeDevice :=
  st.assignments.find? (fun b => decide (b.id = i ∧ b.userId = st.userId))

/-- src/src/controllers/userHomeDeviceController.js `addHomeDeviceToUser`,
modelled faithfully to the storage layer.  The handler wraps its two queries
in `safeTransaction(async () => {…}, prisma)`, but the callback takes no
parameter and closes over the global client, so both queries run outside the
interactive transaction: the `userHomeDevice.create` commits immediately.
The subsequent `user.update` increments the `Int` columns `minBudget` and
`totalWattage`; the client rejects the update (a validation error, surfacing
as a 500) whenever an increment is not an integer — which
`calculateDeviceCost(watts, 24)` usually is not — and nothing rolls the
insert back, leaving the new row behind with the aggregates unchanged. -/
def addHomeDeviceToUserInt (st : AppStateInt)
    (homeDeviceId chosenWatts userInputWorkTime : ReqVal) :
    Resp × AppStateInt :=
  if isMissingParam homeDeviceId || isMissingParam chosenWatts then
    (.err 400 "Missing required parameters", st)
  else
    let deviceId := safeParseNumber homeDeviceId 0
    let watts := safeParseNumber chosenWatts 0
    if deviceId ≤ 0 ∨ watts ≤ 0 then
      (.err 400 "Invalid homeDeviceId or chosenWatts", st)
    else
      match catalogFind st.catalog deviceId with
      | none => (.err 404 "Device not found", st)
      | some systemDevice =>
        if watts ∈ systemDevice.wattsOptions then
          let actualWorkTime :=
            if systemDevice.deviceWorkAllDay then 24
            else safeParseNumber userInputWorkTime 0
          let newDev : UserHomeDevice :=
            { id := st.nextId, userId := st.userId, systemDeviceId := deviceId,
              chosenWatts := watts, userInputWorkTime := actualWorkTime }
          let inserted :=
            { st with
                assignments := st.assignments ++ [newDev],
                nextId := st.nextId + 1 }
          if systemDevice.deviceWorkAllDay then
            let inc := calculateDeviceCost watts 24
            if inc.den = 1 ∧ watts.den = 1 then
              (.created,
                { inserted with
                    minBudget := inserted.minBudget + inc.num,
                    totalWattage := inserted.totalWattage + watts.num })
            else (.err 500 "Internal server error", inserted)
          else (.created, inserted)
        else (.err 400 "Invalid wattage choice", st)

/-- src/src/controllers/userHomeDeviceController.js `updateUserHomeDevice`,
faithful to the storage layer in the same way: the row patch commits on the
global client, then the aggregate `user.update` applies only when both the
cost difference and the wattage difference are integers, and otherwise fails
(500) with the patched row left behind. -/
def updateUserHomeDeviceInt (st : AppStateInt)
    (idv chosenWatts userInputWorkTime : ReqVal) : Resp × AppStateInt :=
  let deviceId := safeParseNumber idv 0
  if deviceId ≤ 0 then (.err 400 "Invalid device ID", st)
  else
    match findAssignmentInt st deviceId with
    | none => (.err 404 "Device not found", st)
    | some existingDevice =>
      match catalogFind st.catalog existingDevice.systemDeviceId with
      | none => (.err 500 "Internal server error", st)
      | some systemDevice =>
        let watts? : Option ℚ :=
          if chosenWatts = ReqVal.undef then none
          else some (safeParseNumber chosenWatts 0)
        let patch := updatePatch systemDevice chosenWatts userInputWorkTime
        let patched :=
          { st with
              assignments := st.assignments.map
                (fun b => if b.id = deviceId then patch b else b) }
        match watts? with
        | some w =>
          if w ∈ systemDevice.wattsOptions then
            if systemDevice.deviceWorkAllDay ∧ existingDevice.chosenWatts ≠ w
            then
              let costDifference := calculateDeviceCost w 24
                - calculateDeviceCost existingDevice.chosenWatts 24
              let wattsDifference := w - existingDevice.chosenWatts
              if costDifference.den = 1 ∧ wattsDifference.den = 1 then
                (.ok,
                  { patched with
                      minBudget := patched.minBudget + costDifference.num,
                      totalWattage := patched.totalWattage
                        + wattsDifference.num })
              else (.err 500 "Internal server error", patched)
            else (.ok, patched)
          else (.err 400 "Invalid wattage choice", st)
        | none => (.ok, patched)

/-- src/src/controllers/userHomeDeviceController.js `deleteUserHomeDevice`,
faithful to the storage layer: the row delete commits on the global client,
then the aggregate decrement applies only when both deltas are integers, and
otherwise fails (500) with the row already gone. -/
def deleteUserHomeDeviceInt (st : AppStateInt) (idv : ReqVal) :
    Resp × AppStateInt :=
  let deviceId := safeParseNumber idv 0
  if deviceId ≤ 0 then (.err 400 "Invalid device ID", st)
  else
    match findAssignmentInt st deviceId with
    | none => (.err 404 "Device not found", st)
    | some existingDevice =>
      match catalogFind st.catalog existingDevice.systemDeviceId with
      | none => (.err 500 "Internal server error", st)
      | some systemDevice =>
        let removed :=
          { st with
              assignments := st.assignments.filter
                (fun b => decide ¬(b.id = deviceId)) }
        if systemDevice.deviceWorkAllDay ∧ existingDevice.chosenWatts ≠ 0
        then
          let dec := calculateDeviceCost existingDevice.chosenWatts 24
          if dec.den = 1 ∧ existingDevice.chosenWatts.den = 1 then
            (.ok,
              { removed with
                  minBudget := removed.minBudget - dec.num,
                  totalWattage := removed.totalWattage
                    - existingDevice.chosenWatts.num })
          else (.err 500 "Internal server error", removed)
        else (.ok, removed)

/-- A fresh user exactly as in the spec's end-to-end example: budget 500, no
assignments, `minBudget = 0`, `totalWattage = 0`, with the all-day catalog
entry `sampleAllDay` (`wattsOptions [60, 100]`) available. -/
def sampleStateInt : AppStateInt :=
  { userId := 7, budget := 500, minBudget := 0, totalWattage := 0,
    catalog := [sampleAllDay], assignments := [], nextId := 10 }

/-- Claim C1 (code bug): the claimed ledger invariant is the spec's intent but
the program cannot maintain it.  On the spec's own end-to-end example — a
fresh user adds an all-day device at 100 W — the committed daily cost
`calculateDeviceCost(100, 24) = 1.632 = 204/125` is not an integer, so the
`user.update` increment on the `Int` column `minBudget` is rejected; and
because the `safeTransaction` callback ignores the transaction client, the
already-committed `userHomeDevice.create` is not rolled back.  The request
ends in a 500 with the assignment row persisted while `minBudget` and
`totalWattage` are unchanged, so afterwards `minBudget = 0` differs from the
sum `Σ cost(chosenWatts, 24) = 204/125` over the user's all-day assignments,
violating the claim after a single create operation. -/
theorem ledger_violated_by_int_columns :
    calculateDeviceCost 100 24 = 204/125
      ∧ (calculateDeviceCost 100 24).den ≠ 1
      ∧ (∃ m, (addHomeDeviceToUserInt sampleStateInt (ReqVal.val 1)
          (ReqVal.val 100) ReqVal.undef).1 = Resp.err 500 m)
      ∧ (addHomeDeviceToUserInt sampleStateInt (ReqVal.val 1)
          (ReqVal.val 100) ReqVal.undef).2.assignments
        = [{ id := 10, userId := 7, systemDeviceId := 1, chosenWatts := 100,
             userInputWorkTime := 24 }]
      ∧ (addHomeDeviceToUserInt sampleStateInt (ReqVal.val 1)
          (ReqVal.val 100) ReqVal.undef).2.minBudget = 0
      ∧ (addHomeDeviceToUserInt sampleStateInt (ReqVal.val 1)
          (ReqVal.val 100) ReqVal.undef).2.totalWattage = 0
      ∧ (((addHomeDeviceToUserInt sampleStateInt (ReqVal.val 1)
            (ReqVal.val 100) ReqVal.undef).2.minBudget : ℚ))
          ≠ ((addHomeDeviceToUserInt sampleStateInt (ReqVal.val 1)
              (ReqVal.val 100) ReqVal.undef).2.assignments.map
            (ledgerCost (addHomeDeviceToUserInt sampleStateInt (ReqVal.val 1)
                (ReqVal.val 100) ReqVal.undef).2.userId
              (addHomeDeviceToUserInt sampleStateInt (ReqVal.val 1)
                (ReqVal.val 100) ReqVal.undef).2.catalog)).sum := by
  have hinc : calculateDeviceCost 100 24 = 204/125 := by
    norm_num [calculateDeviceCost]
  have hden : (calculateDeviceCost 100 24).den ≠ 1 := by
    intro h
    have h1 : ((calculateDeviceCost 100 24).num : ℚ)
        = calculateDeviceCost 100 24 := by
      conv_rhs => rw [← Rat.num_div_den (calculateDeviceCost 100 24)]
      rw [h]
      norm_num
    have h2 : ((calculateDeviceCost 100 24).num : ℚ) = 204/125 := by
      rw [h1, hinc]
    have h3 : (125 : ℚ) * ((calculateDeviceCost 100 24).num : ℚ) = 204 := by
      rw [h2]
      norm_num
    have h4 : (125 : ℤ) * (calculateDeviceCost 100 24).num = 204 := by
      exact_mod_cast h3
    omega
  have hnotint : ¬((calculateDeviceCost (safeParseNumber (ReqVal.val 100) 0)
      24).den = 1 ∧ (safeParseNumber (ReqVal.val 100) 0).den = 1) :=
    fun hc => hden hc.1
  have heval : addHomeDeviceToUserInt sampleStateInt (ReqVal.val 1)
      (ReqVal.val 100) ReqVal.undef
      = (Resp.err 500 "Internal server error",
         { userId := 7, budget := 500, minBudget := 0, totalWattage := 0,
           catalog := [sampleAllDay],
           assignments := [{ id := 10, userId := 7, systemDeviceId := 1,
                             chosenWatts := 100, userInputWorkTime := 24 }],
           nextId := (10 : ℚ) + 1 }) := by
    simp only [addHomeDeviceToUserInt]
    rw [if_neg (by decide)]
    rw [if_neg (by decide)]
    simp only [show catalogFind sampleStateInt.catalog
        (safeParseNumber (ReqVal.val 1)) = some sampleAllDay from rfl]
    rw [if_pos (by decide)]
    simp only [show sampleAllDay.deviceWorkAllDay = true from rfl, if_true]
    rw [if_neg hnotint]
    rfl
  refine ⟨hinc, hden, ⟨"Internal server error", by rw [heval]⟩,
    by rw [heval], by rw [heval], by rw [heval], ?_⟩
  rw [heval]
  simp only [List.map_cons, List.map_nil, List.sum_cons, List.sum_nil]
  rw [show ledgerCost 7 [sampleAllDay]
      { id := 10, userId := 7, systemDeviceId := 1, chosenWatts := 100,
        userInputWorkTime := 24 } = calculateDeviceCost 100 24 from rfl]
  rw [hinc]
  norm_num
